import Mathlib

/-!
Verification of the markdoc-custom-format-generator widgets.

The repository contains three independent form widgets (a DocFooter
generator, a RequestResponse generator in two variants, and a ButtonList
generator).  Each widget keeps an ordered list of entries in local state,
validates the fields on every edit, serializes the state to a fixed
template string, and copies that string to the clipboard when validation
passes.  This file embeds the state types and the handler/serializer
functions of those widgets and proves properties about them.

String values are modelled with Lean's `String`; the JavaScript string
primitives used by the source (`startsWith`, `trim`, and the regex
replacements over quotes, newlines and whitespace runs) are embedded as
executable functions over the underlying character lists.
-/

/-- JavaScript `String.prototype.startsWith`: the prefix test. -/
def jsStartsWith (s pre : String) : Bool := pre.data.isPrefixOf s.data

/-- The JavaScript regex `\s` character class (ASCII whitespace plus the
Unicode space separators, line/paragraph separators, NBSP and BOM). -/
def isJsWs (c : Char) : Bool :=
  c == ' ' || c == '\t' || c == '\n' || c == '\x0b' || c == '\x0c' || c == '\r' ||
  c.val == 0xa0 || c.val == 0x1680 || (0x2000 ≤ c.val && c.val ≤ 0x200a) ||
  c.val == 0x2028 || c.val == 0x2029 || c.val == 0x202f || c.val == 0x205f ||
  c.val == 0x3000 || c.val == 0xfeff

/-- JavaScript `String.prototype.trim`: drop `\s` characters from both ends. -/
def jsTrim (l : List Char) : List Char :=
  ((l.dropWhile isJsWs).reverse.dropWhile isJsWs).reverse

/-- The replacement `.replace(/'/g, "\\'")`: prefix every apostrophe with a
backslash. -/
def escApos : List Char → List Char
  | [] => []
  | c :: cs => (if c == '\'' then ['\\', '\''] else [c]) ++ escApos cs

/-- The replacement `.replace(/\n/g, '\\n')`: turn every newline character
into the two characters backslash and `n`. -/
def escNl : List Char → List Char
  | [] => []
  | c :: cs => (if c == '\n' then ['\\', 'n'] else [c]) ++ escNl cs

/-- The replacement `.replace(/\s+/g, ' ')`: collapse every maximal run of
`\s` characters into a single space.  The boolean accumulator records
whether the previous character belonged to a whitespace run. -/
def collapseWs : Bool → List Char → List Char
  | _, [] => []
  | prevWs, c :: cs =>
    if isJsWs c then
      if prevWs then collapseWs true cs else ' ' :: collapseWs true cs
    else c :: collapseWs false cs

/-- The replacement `.replace(/"/g, "'")`: every double quote becomes an
apostrophe. -/
def quotesToApos (l : List Char) : List Char :=
  l.map (fun c => if c == '"' then '\'' else c)

/-- Lower-case hexadecimal digit, as produced by `JSON.stringify` for
control-character escapes. -/
def hexDigit (n : Nat) : Char :=
  if n < 10 then Char.ofNat (48 + n) else Char.ofNat (87 + n)

/-- The escape `JSON.stringify` applies to a single character inside a
string literal. -/
def jsonEscapeChar (c : Char) : List Char :=
  if c == '"' then ['\\', '"']
  else if c == '\\' then ['\\', '\\']
  else if c == '\x08' then ['\\', 'b']
  else if c == '\t' then ['\\', 't']
  else if c == '\n' then ['\\', 'n']
  else if c == '\x0c' then ['\\', 'f']
  else if c == '\r' then ['\\', 'r']
  else if c.val < 0x20 then
    ['\\', 'u', '0', '0', hexDigit (c.val.toNat / 16), hexDigit (c.val.toNat % 16)]
  else [c]

/-- `JSON.stringify` escaping of a whole character list. -/
def jsonEscape : List Char → List Char
  | [] => []
  | c :: cs => jsonEscapeChar c ++ jsonEscape cs

/-- `JSON.stringify` of a string value: the escaped text between double
quotes. -/
def jsonQuote (s : String) : String :=
  ⟨'"' :: (jsonEscape s.data ++ ['"'])⟩

/-! ## DocFooter generator (DocFooterGenerator component)

State: a list of related links (initially one empty link), an optional
"see also" link, the `showSeeAlso` checkbox, and the transient `copied`
flag. -/

/-- A related-link entry of the DocFooter form: `title`, `url` and the
derived `urlError` message. -/
structure RelatedLink where
  title : String
  url : String
  urlError : String
deriving DecidableEq

/-- The "see also" entry of the DocFooter form (same shape as
`RelatedLink`, declared separately in the source). -/
structure SeeAlsoLink where
  title : String
  url : String
  urlError : String
deriving DecidableEq

/-- The field selector of `handleLinkChange` (`'title' | 'url'`). -/
inductive LinkField
  | title
  | url
deriving DecidableEq

/-- The local state of the DocFooter widget. -/
structure DFState where
  links : List RelatedLink
  seeAlso : Option SeeAlsoLink
  showSeeAlso : Bool
  copied : Bool
deriving DecidableEq

namespace DocFooter

/-- `validateUrl`: empty urls and urls that do not start with `/docs` get a
non-empty error message; every other url gets the empty string. -/
def validateUrl (url : String) : String :=
  if url == "" then "URL is required"
  else if !(jsStartsWith url "/docs") then "URL must start with /docs"
  else ""

/-- `handleAddLink`: append a fresh empty link. -/
def handleAddLink (links : List RelatedLink) : List RelatedLink :=
  links ++ [{ title := "", url := "", urlError := "" }]

/-- Helper for `handleRemoveLink`: `links.filter((_, i) => i !== index)`,
keeping track of the running element index. -/
def removeLinkGo (index : Nat) : Nat → List RelatedLink → List RelatedLink
  | _, [] => []
  | i, l :: ls =>
    if i == index then removeLinkGo index (i + 1) ls
    else l :: removeLinkGo index (i + 1) ls

/-- `handleRemoveLink`: drop the link at `index`.  Note that the handler
itself has no guard for a one-element list. -/
def handleRemoveLink (links : List RelatedLink) (index : Nat) : List RelatedLink :=
  removeLinkGo index 0 links

/-- A click on the remove button of a related link.  The button carries
`disabled=\x7blinks.length === 1\x7d`, so the click only reaches
`handleRemoveLink` when the list has at least two entries. -/
def removeLinkClick (links : List RelatedLink) (index : Nat) : List RelatedLink :=
  if links.length == 1 then links else handleRemoveLink links index

/-- Helper for `handleLinkChange`: `links.map((link, i) => ...)` with the
running element index. -/
def linkChangeGo (index : Nat) (field : LinkField) (value : String) :
    Nat → List RelatedLink → List RelatedLink
  | _, [] => []
  | i, l :: ls =>
    (if i == index then
      match field with
      | .title => { l with title := value }
      | .url => { l with url := value, urlError := validateUrl value }
     else l) :: linkChangeGo index field value (i + 1) ls

/-- `handleLinkChange`: update one field of the link at `index`; editing the
url also recomputes its `urlError`. -/
def handleLinkChange (links : List RelatedLink) (index : Nat) (field : LinkField)
    (value : String) : List RelatedLink :=
  linkChangeGo index field value 0 links

/-- `hasErrors`: some link has an invalid url or an empty title, or the
"see also" entry is shown and has an invalid url or an empty title. -/
def hasErrors (s : DFState) : Bool :=
  let linksHaveErrors := s.links.any (fun link => validateUrl link.url != "" || link.title == "")
  let seeAlsoHasErrors := s.showSeeAlso &&
    (match s.seeAlso with
     | some sa => validateUrl sa.url != "" || sa.title == ""
     | none => false)
  linksHaveErrors || seeAlsoHasErrors

/-- `JSON.stringify(\x7b title, url \x7d)` for one link: key order is `title`
then `url`, with no added whitespace. -/
def linkJson (l : RelatedLink) : String :=
  "\x7b\"title\":" ++ jsonQuote l.title ++ ",\"url\":" ++ jsonQuote l.url ++ "\x7d"

/-- `JSON.stringify(links.map((\x7btitle, url\x7d) => (\x7btitle, url\x7d)))`:
the compact JSON array of the projected links. -/
def relatedLinksJson (links : List RelatedLink) : String :=
  "[" ++ String.intercalate "," (links.map linkJson) ++ "]"

/-- `JSON.stringify(\x7b title: seeAlso.title, url: seeAlso.url \x7d)`. -/
def seeAlsoJson (sa : SeeAlsoLink) : String :=
  "\x7b\"title\":" ++ jsonQuote sa.title ++ ",\"url\":" ++ jsonQuote sa.url ++ "\x7d"

/-- `generateMarkdoc` of the DocFooter widget: the placeholder comment when
validation fails, otherwise the `\x7b% docfooter ... /%\x7d` tag whose
arguments are the JSON-stringified links with double quotes turned into
apostrophes and whitespace runs collapsed. -/
def generateMarkdoc (s : DFState) : String :=
  if hasErrors s then "// Please fix validation errors before generating the code"
  else
    let relatedLinksStr : String :=
      ⟨collapseWs false (quotesToApos (relatedLinksJson s.links).data)⟩
    let seeAlsoParts : List String :=
      match s.seeAlso with
      | some sa =>
        if s.showSeeAlso && sa.title != "" && sa.url != "" then
          ["seeAlso=" ++ (⟨collapseWs false (quotesToApos (seeAlsoJson sa).data)⟩ : String)]
        else []
      | none => []
    let parts := ("relatedLinks=" ++ relatedLinksStr) :: seeAlsoParts
    "\x7b% docfooter " ++ String.intercalate " " parts ++ " /%\x7d"

/-- `handleCopy` of the DocFooter widget: a no-op when validation fails,
otherwise it writes the serialized string to the clipboard (the `Option
String` component) and sets the `copied` flag. -/
def handleCopy (s : DFState) : Option String × DFState :=
  if hasErrors s then (none, s)
  else (some (generateMarkdoc s), { s with copied := true })

end DocFooter

/-! ## ButtonList generator (ButtonListGenerator component) -/

/-- A button entry: `label`, `link` and the generated `id`. -/
structure ButtonItem where
  label : String
  link : String
  id : String
deriving DecidableEq

/-- The field selector of `updateItem` (`keyof Omit<ButtonItem, 'id'>`). -/
inductive BLField
  | label
  | link
deriving DecidableEq

/-- The local state of the ButtonList widget. -/
structure BLState where
  items : List ButtonItem
  copied : Bool
deriving DecidableEq

namespace ButtonList

/-- `addItem`: append an empty item whose id is the decimal string of
`items.length + 1`. -/
def addItem (items : List ButtonItem) : List ButtonItem :=
  items ++ [{ label := "", link := "", id := toString (items.length + 1) }]

/-- `removeItem`: a guarded removal — the list is returned unchanged when it
has exactly one element, otherwise every item whose id equals the argument
is filtered out. -/
def removeItem (items : List ButtonItem) (id : String) : List ButtonItem :=
  if items.length == 1 then items
  else items.filter (fun item => item.id != id)

/-- `updateItem`: set one field on every item whose id equals the argument. -/
def updateItem (items : List ButtonItem) (id : String) (field : BLField)
    (value : String) : List ButtonItem :=
  items.map (fun item =>
    if item.id == id then
      match field with
      | .label => { item with label := value }
      | .link => { item with link := value }
    else item)

/-- `hasErrors`: some item has an empty label or an empty link. -/
def hasErrors (items : List ButtonItem) : Bool :=
  items.any (fun item => item.label == "" || item.link == "")

/-- `generateMarkdoc` of the ButtonList widget: the placeholder comment when
a field is empty, otherwise the `\x7b% buttonlist ... /%\x7d` tag with the
labels and links interpolated verbatim. -/
def generateMarkdoc (items : List ButtonItem) : String :=
  if items.any (fun item => item.label == "" || item.link == "") then
    "// Please fill in all fields for each button"
  else
    let itemsStr := String.intercalate ", " (items.map (fun item =>
      "\x7b label: \"" ++ item.label ++ "\", link: \"" ++ item.link ++ "\" \x7d"))
    "\x7b% buttonlist items=[ " ++ itemsStr ++ " ] /%\x7d"

/-- `handleCopy` of the ButtonList widget: a no-op when some field is empty,
otherwise it writes the serialized string and sets the `copied` flag. -/
def handleCopy (s : BLState) : Option String × BLState :=
  if s.items.any (fun item => item.label == "" || item.link == "") then (none, s)
  else (some (generateMarkdoc s.items), { s with copied := true })

/-- The item lists reachable from the initial state through the widget's
add, remove and update actions. -/
inductive Reachable : List ButtonItem → Prop
  | init : Reachable [{ label := "", link := "", id := "1" }]
  | add {items} : Reachable items → Reachable (addItem items)
  | remove {items} (id : String) : Reachable items → Reachable (removeItem items id)
  | update {items} (id : String) (field : BLField) (value : String) :
      Reachable items → Reachable (updateItem items id field value)

end ButtonList

/-! ## RequestResponse generator, Prism-highlighting variant
(src/src/components/RequestResponse/RequestResponseGenerator.tsx) -/

/-- A request code block: selected `language`, raw `code` and the generated
`id`. -/
structure RequestCode where
  language : String
  code : String
  id : String
deriving DecidableEq

/-- The field selector of `updateRequest` (`keyof RequestCode`). -/
inductive RRField
  | language
  | code
  | id
deriving DecidableEq

namespace RRPrism

/-- The local state of the Prism variant: the HTTP method, the request
blocks, the response text, the `copied` flag and the highlighted-HTML
cache keyed by block id. -/
structure RRState where
  method : String
  requests : List RequestCode
  response : String
  copied : Bool
  highlightedCode : List (String × String)
deriving DecidableEq

/-- `stringifyCode`: trim, backslash-escape apostrophes, replace newlines by
literal `\n`, then collapse the remaining whitespace runs. -/
def stringifyCode (code : String) : String :=
  ⟨collapseWs false (escNl (escApos (jsTrim code.data)))⟩

/-- `addRequestBlock`: append an empty cURL block whose id is the decimal
string of `requests.length + 1`. -/
def addRequestBlock (requests : List RequestCode) : List RequestCode :=
  requests ++ [{ language := "cURL", code := "", id := toString (requests.length + 1) }]

/-- `removeRequestBlock`: unchanged when only one block remains, otherwise
every block with the given id is filtered out and its highlight cache entry
deleted. -/
def removeRequestBlock (s : RRState) (id : String) : RRState :=
  if s.requests.length == 1 then s
  else
    { s with
      requests := s.requests.filter (fun req => req.id != id),
      highlightedCode := s.highlightedCode.filter (fun p => p.1 != id) }

/-- `updateRequest`: set one field on every request whose id equals the
argument. -/
def updateRequest (requests : List RequestCode) (id : String) (field : RRField)
    (value : String) : List RequestCode :=
  requests.map (fun req =>
    if req.id == id then
      match field with
      | .language => { req with language := value }
      | .code => { req with code := value }
      | .id => { req with id := value }
    else req)

/-- `hasErrors`: some block has empty code, or the response is empty. -/
def hasErrors (requests : List RequestCode) (response : String) : Bool :=
  requests.any (fun req => req.code == "") || response == ""

/-- `generateMarkdoc` of the Prism variant: the placeholder comment when a
code block or the response is empty, otherwise the
`\x7b% requestresponse ... /%\x7d` tag with `stringifyCode` applied to each
code block and to the response. -/
def generateMarkdoc (method : String) (requests : List RequestCode)
    (response : String) : String :=
  if requests.any (fun req => req.code == "") || response == "" then
    "// Please fill in all request code blocks and response field"
  else
    let requestsStr := String.intercalate "," (requests.map (fun req =>
      "\x7blanguage: \"" ++ req.language ++ "\", code: \"" ++ stringifyCode req.code ++ "\"\x7d"))
    "\x7b% requestresponse method=\"" ++ method ++ "\" requests=[" ++ requestsStr ++
      "] response=\"" ++ stringifyCode response ++ "\" /%\x7d"

/-- `handleCopy` of the Prism variant: a no-op when a field is empty,
otherwise it writes the serialized string and sets the `copied` flag. -/
def handleCopy (s : RRState) : Option String × RRState :=
  if s.requests.any (fun req => req.code == "") || s.response == "" then (none, s)
  else (some (generateMarkdoc s.method s.requests s.response), { s with copied := true })

end RRPrism

/-! ## RequestResponse generator, plain variant (second copy of the
component, without Prism highlighting) -/

namespace RRPlain

/-- `stringifyCode` of the plain variant. -/
def stringifyCode (code : String) : String :=
  ⟨collapseWs false (escNl (escApos (jsTrim code.data)))⟩

/-- `hasErrors` of the plain variant. -/
def hasErrors (requests : List RequestCode) (response : String) : Bool :=
  requests.any (fun req => req.code == "") || response == ""

/-- `generateMarkdoc` of the plain variant. -/
def generateMarkdoc (method : String) (requests : List RequestCode)
    (response : String) : String :=
  if requests.any (fun req => req.code == "") || response == "" then
    "// Please fill in all request code blocks and response field"
  else
    let requestsStr := String.intercalate "," (requests.map (fun req =>
      "\x7blanguage: \"" ++ req.language ++ "\", code: \"" ++ stringifyCode req.code ++ "\"\x7d"))
    "\x7b% requestresponse method=\"" ++ method ++ "\" requests=[" ++ requestsStr ++
      "] response=\"" ++ stringifyCode response ++ "\" /%\x7d"

end RRPlain

/-! ## Specification predicates about escaped output -/

/-- Character lists in which every apostrophe is immediately preceded by a
backslash: the list is empty, starts with a backslash-apostrophe pair, or
starts with a character other than an apostrophe. -/
inductive AposEsc : List Char → Prop
  | nil : AposEsc []
  | pair {l : List Char} : AposEsc l → AposEsc ('\\' :: '\'' :: l)
  | other {c : Char} {l : List Char} : c ≠ '\'' → AposEsc l → AposEsc (c :: l)

/-- No two adjacent characters of the list are both `\s` whitespace, i.e.
every whitespace run has length one. -/
def noWsRun : List Char → Bool
  | a :: b :: rest => !(isJsWs a && isJsWs b) && noWsRun (b :: rest)
  | _ => true

theorem escApos_aposEsc (l : List Char) : AposEsc (escApos l) := by
  induction l with
  | nil => exact .nil
  | cons c cs ih =>
    by_cases h : c = '\''
    · subst h
      show AposEsc ('\\' :: '\'' :: escApos cs)
      exact .pair ih
    · have hb : (c == '\'') = false := by simpa using h
      show AposEsc ((if c == '\'' then ['\\', '\''] else [c]) ++ escApos cs)
      rw [hb]
      exact .other h ih

theorem escNl_aposEsc {l : List Char} (h : AposEsc l) : AposEsc (escNl l) := by
  induction h with
  | nil => exact .nil
  | @pair l' hl ih =>
    show AposEsc ('\\' :: '\'' :: escNl l')
    exact .pair ih
  | @other c l' hne hl ih =>
    by_cases hc : c = '\n'
    · subst hc
      show AposEsc ('\\' :: 'n' :: escNl l')
      exact .other (by decide) (.other (by decide) ih)
    · have hb : (c == '\n') = false := by simpa using hc
      show AposEsc ((if c == '\n' then ['\\', 'n'] else [c]) ++ escNl l')
      rw [hb]
      exact .other hne ih

theorem collapseWs_aposEsc {l : List Char} (h : AposEsc l) :
    ∀ b : Bool, AposEsc (collapseWs b l) := by
  induction h with
  | nil => intro b; exact .nil
  | @pair l' hl ih =>
    intro b
    show AposEsc ('\\' :: '\'' :: collapseWs false l')
    exact .pair (ih false)
  | @other c l' hne hl ih =>
    intro b
    by_cases hw : isJsWs c = true
    · cases b with
      | true =>
        show AposEsc (collapseWs true (c :: l'))
        simp only [collapseWs, hw, if_true]
        exact ih true
      | false =>
        show AposEsc (collapseWs false (c :: l'))
        simp only [collapseWs, hw, if_true]
        exact .other (by decide) (ih true)
    · have hw' : isJsWs c = false := by simpa using hw
      show AposEsc (collapseWs b (c :: l'))
      simp only [collapseWs, hw', Bool.false_eq_true, if_false]
      exact .other hne (ih false)

theorem escNl_no_nl (l : List Char) : '\n' ∉ escNl l := by
  induction l with
  | nil => simp [escNl]
  | cons c cs ih =>
    by_cases hc : c = '\n'
    · subst hc
      show '\n' ∉ '\\' :: 'n' :: escNl cs
      simp only [List.mem_cons]
      rintro (h | h | h)
      · exact absurd h (by decide)
      · exact absurd h (by decide)
      · exact ih h
    · have hb : (c == '\n') = false := by simpa using hc
      show '\n' ∉ (if c == '\n' then ['\\', 'n'] else [c]) ++ escNl cs
      rw [hb]
      simp only [Bool.false_eq_true, if_false, List.singleton_append, List.mem_cons]
      rintro (h | h)
      · exact hc h.symm
      · exact ih h

theorem collapseWs_mem {c : Char} : ∀ (b : Bool) (l : List Char),
    c ∈ collapseWs b l → c = ' ' ∨ c ∈ l := by
  intro b l
  induction l generalizing b with
  | nil => intro h; exact absurd h (by simp [collapseWs])
  | cons a as ih =>
    intro h
    by_cases hw : isJsWs a = true
    · cases b with
      | true =>
        simp only [collapseWs, hw, if_true] at h
        rcases ih true h with h' | h'
        · exact Or.inl h'
        · exact Or.inr (List.mem_cons_of_mem _ h')
      | false =>
        simp only [collapseWs, hw, if_true] at h
        rcases List.mem_cons.mp h with h' | h'
        · exact Or.inl h'
        · rcases ih true h' with h'' | h''
          · exact Or.inl h''
          · exact Or.inr (List.mem_cons_of_mem _ h'')
    · have hw' : isJsWs a = false := by simpa using hw
      simp only [collapseWs, hw', Bool.false_eq_true, if_false] at h
      rcases List.mem_cons.mp h with h' | h'
      · exact Or.inr (h' ▸ List.mem_cons_self _ _)
      · rcases ih false h' with h'' | h''
        · exact Or.inl h''
        · exact Or.inr (List.mem_cons_of_mem _ h'')

theorem collapseWs_true_head {c : Char} {cs : List Char} :
    ∀ l : List Char, collapseWs true l = c :: cs → isJsWs c = false := by
  intro l
  induction l generalizing c cs with
  | nil => intro h; exact absurd h (by simp [collapseWs])
  | cons a as ih =>
    intro h
    by_cases hw : isJsWs a = true
    · simp only [collapseWs, hw, if_true] at h
      exact ih h
    · have hw' : isJsWs a = false := by simpa using hw
      simp only [collapseWs, hw', Bool.false_eq_true, if_false, List.cons.injEq] at h
      exact h.1 ▸ hw'

theorem noWsRun_cons {a : Char} {l : List Char} (ha : isJsWs a = false)
    (hl : noWsRun l = true) : noWsRun (a :: l) = true := by
  cases l with
  | nil => rfl
  | cons b rest => simp [noWsRun, ha, hl]

theorem collapseWs_noWsRun : ∀ (b : Bool) (l : List Char),
    noWsRun (collapseWs b l) = true := by
  intro b l
  induction l generalizing b with
  | nil => cases b <;> rfl
  | cons a as ih =>
    by_cases hw : isJsWs a = true
    · cases b with
      | true =>
        simp only [collapseWs, hw, if_true]
        exact ih true
      | false =>
        simp only [collapseWs, hw, if_true]
        rcases he : collapseWs true as with _ | ⟨c, cs⟩
        · rfl
        · have hc : isJsWs c = false := collapseWs_true_head as he
          have : noWsRun (c :: cs) = true := he ▸ ih true
          simp [noWsRun, hc, this]
    · have hw' : isJsWs a = false := by simpa using hw
      simp only [collapseWs, hw', Bool.false_eq_true, if_false]
      exact noWsRun_cons hw' (ih false)

theorem linkChangeGo_length (index : Nat) (field : LinkField) (value : String) :
    ∀ (links : List RelatedLink) (k : Nat),
      (DocFooter.linkChangeGo index field value k links).length = links.length := by
  intro links
  induction links with
  | nil => intro k; rfl
  | cons l ls ih =>
    intro k
    simp only [DocFooter.linkChangeGo, List.length_cons, ih]

theorem linkChangeGo_getElem (index : Nat) (field : LinkField) (value : String) :
    ∀ (links : List RelatedLink) (k j : Nat), k + j ≠ index →
      (DocFooter.linkChangeGo index field value k links)[j]? = links[j]? := by
  intro links
  induction links with
  | nil => intro k j _; rfl
  | cons l ls ih =>
    intro k j hne
    cases j with
    | zero =>
      have hk : (k == index) = false := by simpa using hne
      simp [DocFooter.linkChangeGo, hk]
    | succ j' =>
      have h' : (k + 1) + j' ≠ index := by omega
      simp only [DocFooter.linkChangeGo, List.getElem?_cons_succ]
      exact ih (k + 1) j' h'

theorem buttonlist_singleton_verbatim (lab lnk itemId : String)
    (h1 : lab ≠ "") (h2 : lnk ≠ "") :
    ButtonList.generateMarkdoc [⟨lab, lnk, itemId⟩] =
      "\x7b% buttonlist items=[ " ++
        ("\x7b label: \"" ++ lab ++ "\", link: \"" ++ lnk ++ "\" \x7d") ++
        " ] /%\x7d" := by
  have hb1 : (lab == "") = false := by simpa using h1
  have hb2 : (lnk == "") = false := by simpa using h2
  simp only [ButtonList.generateMarkdoc, List.any_cons, List.any_nil, hb1, hb2,
    Bool.or_false, Bool.false_eq_true, if_false, List.map_cons, List.map_nil,
    String.intercalate]
  rfl

/-! ## Claims -/

/-- Claim C1, counterexample: the docfooter serialization of the single
valid link (title `Guide`, url `/docs/guide`, no seeAlso) is not the string
given in the spec's example — `JSON.stringify` emits compact JSON, so the
output has no spaces inside the braces or after the colons. -/
theorem C1_spec_example_counterexample :
    DocFooter.generateMarkdoc ⟨[⟨"Guide", "/docs/guide", ""⟩], none, false, false⟩ ≠
      "\x7b% docfooter relatedLinks=[\x7b 'title': 'Guide', 'url': '/docs/guide' \x7d] /%\x7d" := by
  decide

/-- Claim C1, amended: the docfooter serialization of the single valid link
(title `Guide`, url `/docs/guide`, no seeAlso) is exactly
`\x7b% docfooter relatedLinks=[\x7b'title':'Guide','url':'/docs/guide'\x7d] /%\x7d`,
with no spaces inside the braces. -/
theorem C1_single_link_serialization :
    DocFooter.generateMarkdoc ⟨[⟨"Guide", "/docs/guide", ""⟩], none, false, false⟩ =
      "\x7b% docfooter relatedLinks=[\x7b'title':'Guide','url':'/docs/guide'\x7d] /%\x7d" := by
  decide

/-- Claim C4: `validateUrl` returns a non-empty error message exactly when
the candidate string is empty or does not start with `/docs`, and every
string that starts with `/docs` validates to the empty (no-error) string. -/
theorem C4_validateUrl_spec (url : String) :
    (DocFooter.validateUrl url ≠ "" ↔ (url = "" ∨ jsStartsWith url "/docs" = false)) ∧
    (jsStartsWith url "/docs" = true → DocFooter.validateUrl url = "") := by
  have hstart : jsStartsWith url "/docs" = true → url ≠ "" := by
    intro hp h
    rw [h] at hp
    exact absurd hp (by decide)
  constructor
  · constructor
    · intro h
      by_cases hu : url = ""
      · exact Or.inl hu
      by_cases hp : jsStartsWith url "/docs" = true
      · exfalso
        apply h
        simp [DocFooter.validateUrl, hu, hp]
      · exact Or.inr (by simpa using hp)
    · rintro (rfl | h)
      · simp [DocFooter.validateUrl]
      · by_cases hu : url = ""
        · simp [DocFooter.validateUrl, hu]
        · simp [DocFooter.validateUrl, hu, h]
  · intro hp
    simp [DocFooter.validateUrl, hstart hp, hp]

/-- Claim C4, witness at the concrete url `/docs/guide`. -/
theorem C4_validateUrl_spec_witness :
    jsStartsWith "/docs/guide" "/docs" = true ∧ DocFooter.validateUrl "/docs/guide" = "" :=
  ⟨by decide, (C4_validateUrl_spec "/docs/guide").2 (by decide)⟩

/-- Claim C3, counterexample: the docfooter remove handler has no size-one
guard — invoked on a list with exactly one (valid) entry it empties the
list rather than leaving it unchanged. -/
theorem C3_docfooter_remove_counterexample :
    DocFooter.handleRemoveLink [⟨"Guide", "/docs/guide", ""⟩] 0 ≠
      [⟨"Guide", "/docs/guide", ""⟩] := by
  decide

/-- Claim C3, amended: the button-list and request-block remove handlers
return the list unchanged when it has exactly one entry; the docfooter
remove handler itself removes the entry even then (it empties a singleton
list), and the count stays at one only because the remove button is
rendered disabled when exactly one link remains, so a click is a no-op. -/
theorem C3_remove_guard_amended :
    (∀ (items : List ButtonItem) (id : String),
        items.length = 1 → ButtonList.removeItem items id = items) ∧
    (∀ (s : RRPrism.RRState) (id : String),
        s.requests.length = 1 → RRPrism.removeRequestBlock s id = s) ∧
    (∀ (links : List RelatedLink) (index : Nat),
        links.length = 1 → DocFooter.removeLinkClick links index = links) ∧
    (∀ l : RelatedLink, DocFooter.handleRemoveLink [l] 0 = []) := by
  refine ⟨?_, ?_, ?_, ?_⟩
  · intro items id h
    simp [ButtonList.removeItem, h]
  · intro s id h
    simp [RRPrism.removeRequestBlock, h]
  · intro links index h
    simp [DocFooter.removeLinkClick, h]
  · intro l
    rfl

/-- Claim C3, witness: the three no-op statements and the docfooter handler
behaviour at concrete singleton lists. -/
theorem C3_remove_guard_amended_witness :
    ButtonList.removeItem [⟨"a", "/x", "1"⟩] "1" = [⟨"a", "/x", "1"⟩] ∧
    RRPrism.removeRequestBlock ⟨"GET", [⟨"cURL", "c", "1"⟩], "r", false, []⟩ "1" =
      ⟨"GET", [⟨"cURL", "c", "1"⟩], "r", false, []⟩ ∧
    DocFooter.removeLinkClick [⟨"Guide", "/docs/guide", ""⟩] 0 =
      [⟨"Guide", "/docs/guide", ""⟩] ∧
    DocFooter.handleRemoveLink [⟨"Guide", "/docs/guide", ""⟩] 0 = [] :=
  ⟨C3_remove_guard_amended.1 _ "1" (by decide),
   C3_remove_guard_amended.2.1 _ "1" (by decide),
   C3_remove_guard_amended.2.2.1 _ 0 (by decide),
   C3_remove_guard_amended.2.2.2 _⟩

/-- Claim C8: the Prism-highlighting variant and the plain variant of the
RequestResponse generator have extensionally equal core logic — their
`stringifyCode`, `generateMarkdoc` and error predicates agree on every
method, request list and response string. -/
theorem C8_variants_extensionally_equal :
    (∀ code : String, RRPrism.stringifyCode code = RRPlain.stringifyCode code) ∧
    (∀ (method : String) (requests : List RequestCode) (response : String),
        RRPrism.generateMarkdoc method requests response =
          RRPlain.generateMarkdoc method requests response) ∧
    (∀ (requests : List RequestCode) (response : String),
        RRPrism.hasErrors requests response = RRPlain.hasErrors requests response) :=
  ⟨fun _ => rfl, fun _ _ _ => rfl, fun _ _ => rfl⟩

/-- The duplicate-id list `["1", "3", "3"]` is reachable in the ButtonList
widget: add twice (ids `2` and `3`), remove the entry with id `2`, then add
again — the new id is the decimal string of the new length plus one, which
is `3` again. -/
theorem reachable_duplicate_ids :
    ButtonList.Reachable [⟨"", "", "1"⟩, ⟨"", "", "3"⟩, ⟨"", "", "3"⟩] := by
  have h : [(⟨"", "", "1"⟩ : ButtonItem), ⟨"", "", "3"⟩, ⟨"", "", "3"⟩] =
      ButtonList.addItem (ButtonList.removeItem
        (ButtonList.addItem (ButtonList.addItem [⟨"", "", "1"⟩])) "2") := by
    decide
  rw [h]
  exact .add (.remove "2" (.add (.add .init)))

/-- Claim C9: every add action appends an entry whose id is the decimal
string of the current list length plus one; consequently ids are not
unique — after add, add, remove id `2`, add, two entries share the id `3`,
and one remove-by-id invocation deletes both of them. -/
theorem C9_sequential_ids_not_unique :
    (∀ items : List ButtonItem,
        ButtonList.addItem items =
          items ++ [{ label := "", link := "", id := toString (items.length + 1) }]) ∧
    (∃ items : List ButtonItem, ButtonList.Reachable items ∧
        items.length = 3 ∧
        items[1]?.map ButtonItem.id = some "3" ∧
        items[2]?.map ButtonItem.id = some "3" ∧
        ButtonList.removeItem items "3" = [{ label := "", link := "", id := "1" }]) := by
  constructor
  · intro items
    rfl
  · exact ⟨[⟨"", "", "1"⟩, ⟨"", "", "3"⟩, ⟨"", "", "3"⟩], reachable_duplicate_ids,
      by decide, by decide, by decide, by decide⟩

/-- Claim C5: whenever some required field of some entry is invalid, the
serializer returns the widget's fixed placeholder comment string and the
widget's error predicate (which disables the publish action) holds.  Stated
for all three widgets; for the docfooter the invalid entry may be a related
link or the shown see-also entry. -/
theorem C5_invalid_field_placeholder :
    (∀ items : List ButtonItem,
        items.any (fun item => item.label == "" || item.link == "") = true →
        ButtonList.generateMarkdoc items = "// Please fill in all fields for each button" ∧
        ButtonList.hasErrors items = true) ∧
    (∀ (method : String) (requests : List RequestCode) (response : String),
        (requests.any (fun req => req.code == "") || response == "") = true →
        RRPrism.generateMarkdoc method requests response =
          "// Please fill in all request code blocks and response field" ∧
        RRPrism.hasErrors requests response = true) ∧
    (∀ s : DFState,
        (s.links.any (fun link => DocFooter.validateUrl link.url != "" || link.title == "") ||
          (s.showSeeAlso &&
            match s.seeAlso with
            | some sa => DocFooter.validateUrl sa.url != "" || sa.title == ""
            | none => false)) = true →
        DocFooter.generateMarkdoc s =
          "// Please fix validation errors before generating the code" ∧
        DocFooter.hasErrors s = true) := by
  refine ⟨?_, ?_, ?_⟩
  · intro items h
    exact ⟨by simp [ButtonList.generateMarkdoc, h], by simp [ButtonList.hasErrors, h]⟩
  · intro method requests response h
    exact ⟨by simp [RRPrism.generateMarkdoc, h], by simp [RRPrism.hasErrors, h]⟩
  · intro s h
    have he : DocFooter.hasErrors s = true := h
    exact ⟨by simp [DocFooter.generateMarkdoc, he], he⟩

/-- Claim C5, witness: a button entry with empty label, a request block
with empty code, and a related link with empty title each force the
placeholder string and the error predicate. -/
theorem C5_invalid_field_placeholder_witness :
    (ButtonList.generateMarkdoc [⟨"", "/x", "1"⟩] =
        "// Please fill in all fields for each button" ∧
      ButtonList.hasErrors [⟨"", "/x", "1"⟩] = true) ∧
    (RRPrism.generateMarkdoc "GET" [⟨"cURL", "", "1"⟩] "resp" =
        "// Please fill in all request code blocks and response field" ∧
      RRPrism.hasErrors [⟨"cURL", "", "1"⟩] "resp" = true) ∧
    (DocFooter.generateMarkdoc ⟨[⟨"", "/docs/guide", ""⟩], none, false, false⟩ =
        "// Please fix validation errors before generating the code" ∧
      DocFooter.hasErrors ⟨[⟨"", "/docs/guide", ""⟩], none, false, false⟩ = true) :=
  ⟨C5_invalid_field_placeholder.1 _ (by decide),
   C5_invalid_field_placeholder.2.1 "GET" _ "resp" (by decide),
   C5_invalid_field_placeholder.2.2 _ (by decide)⟩

/-- Claim C6: the clipboard publisher of each widget is gated on
validation — when the error predicate holds, the copy handler writes
nothing and leaves the state unchanged; when it does not, the handler
writes exactly the serialized string (and sets the transient `copied`
flag). -/
theorem C6_copy_gated_on_validation :
    (∀ s : BLState,
        (ButtonList.hasErrors s.items = true → ButtonList.handleCopy s = (none, s)) ∧
        (ButtonList.hasErrors s.items = false →
          ButtonList.handleCopy s =
            (some (ButtonList.generateMarkdoc s.items), { s with copied := true }))) ∧
    (∀ s : RRPrism.RRState,
        (RRPrism.hasErrors s.requests s.response = true →
          RRPrism.handleCopy s = (none, s)) ∧
        (RRPrism.hasErrors s.requests s.response = false →
          RRPrism.handleCopy s =
            (some (RRPrism.generateMarkdoc s.method s.requests s.response),
              { s with copied := true }))) ∧
    (∀ s : DFState,
        (DocFooter.hasErrors s = true → DocFooter.handleCopy s = (none, s)) ∧
        (DocFooter.hasErrors s = false →
          DocFooter.handleCopy s =
            (some (DocFooter.generateMarkdoc s), { s with copied := true }))) := by
  refine ⟨?_, ?_, ?_⟩
  · intro s
    constructor
    · intro h
      have hg : (s.items.any fun item => item.label == "" || item.link == "") = true := h
      simp [ButtonList.handleCopy, hg]
    · intro h
      have hg : (s.items.any fun item => item.label == "" || item.link == "") = false := h
      simp [ButtonList.handleCopy, hg]
  · intro s
    constructor
    · intro h
      have hg : ((s.requests.any fun req => req.code == "") || s.response == "") = true := h
      simp [RRPrism.handleCopy, hg]
    · intro h
      have hg : ((s.requests.any fun req => req.code == "") || s.response == "") = false := h
      simp [RRPrism.handleCopy, hg]
  · intro s
    constructor
    · intro h
      simp [DocFooter.handleCopy, h]
    · intro h
      simp [DocFooter.handleCopy, h]

/-- Claim C6, witness: concrete error and error-free states of all three
widgets. -/
theorem C6_copy_gated_on_validation_witness :
    ButtonList.handleCopy ⟨[⟨"", "/x", "1"⟩], false⟩ = (none, ⟨[⟨"", "/x", "1"⟩], false⟩) ∧
    ButtonList.handleCopy ⟨[⟨"a", "/x", "1"⟩], false⟩ =
      (some (ButtonList.generateMarkdoc [⟨"a", "/x", "1"⟩]), ⟨[⟨"a", "/x", "1"⟩], true⟩) ∧
    RRPrism.handleCopy ⟨"GET", [⟨"cURL", "", "1"⟩], "r", false, []⟩ =
      (none, ⟨"GET", [⟨"cURL", "", "1"⟩], "r", false, []⟩) ∧
    RRPrism.handleCopy ⟨"GET", [⟨"cURL", "c", "1"⟩], "r", false, []⟩ =
      (some (RRPrism.generateMarkdoc "GET" [⟨"cURL", "c", "1"⟩] "r"),
        ⟨"GET", [⟨"cURL", "c", "1"⟩], "r", true, []⟩) ∧
    DocFooter.handleCopy ⟨[⟨"", "/docs", ""⟩], none, false, false⟩ =
      (none, ⟨[⟨"", "/docs", ""⟩], none, false, false⟩) ∧
    DocFooter.handleCopy ⟨[⟨"Guide", "/docs/guide", ""⟩], none, false, false⟩ =
      (some (DocFooter.generateMarkdoc ⟨[⟨"Guide", "/docs/guide", ""⟩], none, false, false⟩),
        ⟨[⟨"Guide", "/docs/guide", ""⟩], none, false, true⟩) :=
  ⟨(C6_copy_gated_on_validation.1 _).1 (by decide),
   (C6_copy_gated_on_validation.1 _).2 (by decide),
   (C6_copy_gated_on_validation.2.1 _).1 (by decide),
   (C6_copy_gated_on_validation.2.1 _).2 (by decide),
   (C6_copy_gated_on_validation.2.2 _).1 (by decide),
   (C6_copy_gated_on_validation.2.2 _).2 (by decide)⟩

/-- Claim C7: each serializer is a pure function of the widget state —
two invocations on equal valid states produce the identical output
string. -/
theorem C7_serialization_deterministic :
    (∀ s t : List ButtonItem, ButtonList.hasErrors s = false → s = t →
        ButtonList.generateMarkdoc s = ButtonList.generateMarkdoc t) ∧
    (∀ (m m' : String) (rs rs' : List RequestCode) (resp resp' : String),
        RRPrism.hasErrors rs resp = false → m = m' → rs = rs' → resp = resp' →
        RRPrism.generateMarkdoc m rs resp = RRPrism.generateMarkdoc m' rs' resp') ∧
    (∀ s t : DFState, DocFooter.hasErrors s = false → s = t →
        DocFooter.generateMarkdoc s = DocFooter.generateMarkdoc t) := by
  refine ⟨?_, ?_, ?_⟩
  · intro s t _ h
    rw [h]
  · intro m m' rs rs' resp resp' _ h1 h2 h3
    rw [h1, h2, h3]
  · intro s t _ h
    rw [h]

/-- Claim C7, witness: two runs on an equal valid state of each widget. -/
theorem C7_serialization_deterministic_witness :
    ButtonList.generateMarkdoc [⟨"a", "/x", "1"⟩] =
      ButtonList.generateMarkdoc [⟨"a", "/x", "1"⟩] ∧
    RRPrism.generateMarkdoc "GET" [⟨"cURL", "c", "1"⟩] "r" =
      RRPrism.generateMarkdoc "GET" [⟨"cURL", "c", "1"⟩] "r" ∧
    DocFooter.generateMarkdoc ⟨[⟨"Guide", "/docs/guide", ""⟩], none, false, false⟩ =
      DocFooter.generateMarkdoc ⟨[⟨"Guide", "/docs/guide", ""⟩], none, false, false⟩ :=
  ⟨C7_serialization_deterministic.1 _ _ (by decide) rfl,
   C7_serialization_deterministic.2.1 "GET" "GET" _ _ "r" "r" (by decide) rfl rfl rfl,
   C7_serialization_deterministic.2.2 _ _ (by decide) rfl⟩

/-- Claim C2, counterexample: the button-list serializer escapes nothing —
on the valid state whose label contains a raw newline (or a raw double
quote) the serialized output contains that character verbatim, with no
backslash and no whitespace replacement. -/
theorem C2_buttonlist_no_escaping_counterexample :
    ButtonList.hasErrors [⟨"a\nb", "x", "1"⟩] = false ∧
    '\n' ∈ (ButtonList.generateMarkdoc [⟨"a\nb", "x", "1"⟩]).data ∧
    ButtonList.generateMarkdoc [⟨"a\"b", "x", "1"⟩] =
      "\x7b% buttonlist items=[ \x7b label: \"a\"b\", link: \"x\" \x7d ] /%\x7d" :=
  ⟨by decide, by decide, by decide⟩

/-- Claim C2, amended: only the request/response serializer escapes its
values, via `stringifyCode` — its output contains no raw newline, every
apostrophe in it is immediately preceded by a backslash, and no two
adjacent characters are whitespace (runs are collapsed); double-quote
characters pass through `stringifyCode` unescaped; and the button-list
serializer interpolates label and link verbatim with no escaping at all. -/
theorem C2_escaping_amended :
    (∀ code : String,
        '\n' ∉ (RRPrism.stringifyCode code).data ∧
        AposEsc (RRPrism.stringifyCode code).data ∧
        noWsRun (RRPrism.stringifyCode code).data = true) ∧
    RRPrism.stringifyCode "say \"hi\"" = "say \"hi\"" ∧
    (∀ lab lnk itemId : String, lab ≠ "" → lnk ≠ "" →
        ButtonList.generateMarkdoc [⟨lab, lnk, itemId⟩] =
          "\x7b% buttonlist items=[ " ++
            ("\x7b label: \"" ++ lab ++ "\", link: \"" ++ lnk ++ "\" \x7d") ++
            " ] /%\x7d") := by
  refine ⟨?_, by decide, buttonlist_singleton_verbatim⟩
  intro code
  refine ⟨?_, ?_, ?_⟩
  · intro hmem
    rcases collapseWs_mem false (escNl (escApos (jsTrim code.data))) hmem with h | h
    · exact absurd h (by decide)
    · exact escNl_no_nl _ h
  · exact collapseWs_aposEsc (escNl_aposEsc (escApos_aposEsc _)) false
  · exact collapseWs_noWsRun false _

/-- Claim C2, witness: the escaping facts at a concrete code value and the
verbatim button-list output at concrete label and link. -/
theorem C2_escaping_amended_witness :
    ('\n' ∉ (RRPrism.stringifyCode "it's a\n test").data ∧
      AposEsc (RRPrism.stringifyCode "it's a\n test").data ∧
      noWsRun (RRPrism.stringifyCode "it's a\n test").data = true) ∧
    ButtonList.generateMarkdoc [⟨"Docs", "/docs", "1"⟩] =
      "\x7b% buttonlist items=[ " ++
        ("\x7b label: \"" ++ "Docs" ++ "\", link: \"" ++ "/docs" ++ "\" \x7d") ++
        " ] /%\x7d" :=
  ⟨C2_escaping_amended.1 "it's a\n test",
   C2_escaping_amended.2.2 "Docs" "/docs" "1" (by decide) (by decide)⟩

/-- Claim C10, counterexample: the id-addressed field edits are not limited
to one entry — on the reachable duplicate-id list `["1", "3", "3"]`, one
`updateItem` invocation with id `3` changes the entries at positions 1 and
2 at once. -/
theorem C10_duplicate_id_edit_counterexample :
    ButtonList.Reachable [⟨"", "", "1"⟩, ⟨"", "", "3"⟩, ⟨"", "", "3"⟩] ∧
    (ButtonList.updateItem [⟨"", "", "1"⟩, ⟨"", "", "3"⟩, ⟨"", "", "3"⟩] "3" .label "z")[1]? ≠
      ([⟨"", "", "1"⟩, ⟨"", "", "3"⟩, ⟨"", "", "3"⟩] : List ButtonItem)[1]? ∧
    (ButtonList.updateItem [⟨"", "", "1"⟩, ⟨"", "", "3"⟩, ⟨"", "", "3"⟩] "3" .label "z")[2]? ≠
      ([⟨"", "", "1"⟩, ⟨"", "", "3"⟩, ⟨"", "", "3"⟩] : List ButtonItem)[2]? :=
  ⟨reachable_duplicate_ids, by decide, by decide⟩

/-- Claim C10, amended: every field-edit action preserves the length of the
list and leaves every entry whose id differs from the target id (or, for
the index-addressed docfooter edit, whose position differs from the target
index) bit-for-bit unchanged; the id-addressed updates rewrite every entry
whose id matches, so with duplicated ids a single edit can change more than
one entry. -/
theorem C10_field_edit_frame :
    (∀ (items : List ButtonItem) (id : String) (field : BLField) (value : String),
        (ButtonList.updateItem items id field value).length = items.length ∧
        ∀ (j : Nat) (item : ButtonItem), items[j]? = some item → item.id ≠ id →
          (ButtonList.updateItem items id field value)[j]? = some item) ∧
    (∀ (requests : List RequestCode) (id : String) (field : RRField) (value : String),
        (RRPrism.updateRequest requests id field value).length = requests.length ∧
        ∀ (j : Nat) (req : RequestCode), requests[j]? = some req → req.id ≠ id →
          (RRPrism.updateRequest requests id field value)[j]? = some req) ∧
    (∀ (links : List RelatedLink) (index : Nat) (field : LinkField) (value : String),
        (DocFooter.handleLinkChange links index field value).length = links.length ∧
        ∀ j : Nat, j ≠ index →
          (DocFooter.handleLinkChange links index field value)[j]? = links[j]?) := by
  refine ⟨?_, ?_, ?_⟩
  · intro items id field value
    constructor
    · show (items.map _).length = items.length
      exact List.length_map _ _
    · intro j item hj hne
      have hb : (item.id == id) = false := by simpa using hne
      show (items.map _)[j]? = some item
      rw [List.getElem?_map, hj]
      simp [hb]
      intro h
      exact absurd h hne
  · intro requests id field value
    constructor
    · show (requests.map _).length = requests.length
      exact List.length_map _ _
    · intro j req hj hne
      have hb : (req.id == id) = false := by simpa using hne
      show (requests.map _)[j]? = some req
      rw [List.getElem?_map, hj]
      simp [hb]
      intro h
      exact absurd h hne
  · intro links index field value
    exact ⟨linkChangeGo_length index field value links 0,
      fun j hj => linkChangeGo_getElem index field value links 0 j (by omega)⟩

/-- Claim C10, witness: the frame facts at concrete two-element lists. -/
theorem C10_field_edit_frame_witness :
    (ButtonList.updateItem [⟨"a", "b", "1"⟩, ⟨"c", "d", "2"⟩] "2" .label "z").length = 2 ∧
    (ButtonList.updateItem [⟨"a", "b", "1"⟩, ⟨"c", "d", "2"⟩] "2" .label "z")[0]? =
      some ⟨"a", "b", "1"⟩ ∧
    (RRPrism.updateRequest [⟨"cURL", "x", "1"⟩, ⟨"Go", "y", "2"⟩] "2" .code "z").length = 2 ∧
    (RRPrism.updateRequest [⟨"cURL", "x", "1"⟩, ⟨"Go", "y", "2"⟩] "2" .code "z")[0]? =
      some ⟨"cURL", "x", "1"⟩ ∧
    (DocFooter.handleLinkChange [⟨"t", "/docs", ""⟩, ⟨"u", "/docs/a", ""⟩] 1 .title "z").length = 2 ∧
    (DocFooter.handleLinkChange [⟨"t", "/docs", ""⟩, ⟨"u", "/docs/a", ""⟩] 1 .title "z")[0]? =
      ([⟨"t", "/docs", ""⟩, ⟨"u", "/docs/a", ""⟩] : List RelatedLink)[0]? :=
  ⟨(C10_field_edit_frame.1 _ "2" .label "z").1,
   (C10_field_edit_frame.1 _ "2" .label "z").2 0 _ (by decide) (by decide),
   (C10_field_edit_frame.2.1 _ "2" .code "z").1,
   (C10_field_edit_frame.2.1 _ "2" .code "z").2 0 _ (by decide) (by decide),
   (C10_field_edit_frame.2.2 _ 1 .title "z").1,
   (C10_field_edit_frame.2.2 _ 1 .title "z").2 0 (by decide)⟩
